import Mathlib

/-!
# Verification of the ERP-sales order processing core

A shallow embedding, over exact rationals, of the order-processing core of
the point-of-sale application: cart pricing (`subTotal`, `totalGeneral`),
per-line price editing (`saveEditItem`), the order-level discount modal
(`handleDiscountValueChange` / `handleDiscountPercentChange` /
`handleDiscountTotalChange`) with its authorization gate (`confirmDiscount`),
payment reconciliation at submission (`handleSubmitSale`), and the lifecycle
operations with their stock side effects (`completeSale`, `cancelSale`,
`handleAddItem`).

Sources: `src/pages/Sales.tsx` for the in-memory cart logic and
`src/unnamed/part_003` (the backend service module) for `completeSale` and
`cancelSale`.  JavaScript numbers are modelled as `ℚ`; JavaScript truthiness
tests on numbers (`x && ...`, `x || y`, `!x`) are modelled as comparisons
with `0`, which is faithful for non-NaN numeric fields.
-/

namespace ERPSales

/-- Structure `SaleItem` from `src/types.ts` (the monetary/quantity fields the core
uses; denormalized display fields such as `productName` are omitted). -/
structure SaleItem where
  productId : String
  quantity : ℚ
  unitPrice : ℚ
  originalPrice : ℚ
  total : ℚ
  deriving DecidableEq, Repr

/-- Structure `Product` from `src/types.ts` (fields used by the stock ledger). -/
structure Product where
  id : String
  price : ℚ
  stock : ℚ
  deriving DecidableEq, Repr

/-- Enum `SaleStatus` from `src/types.ts`. -/
inductive SaleStatus where
  | PENDING
  | COMPLETED
  | CANCELLED
  | BUDGET
  deriving DecidableEq, Repr

/-- Structure `Sale` from `src/types.ts` (fields used by the lifecycle operations). -/
structure Sale where
  id : String
  items : List SaleItem
  discount : ℚ
  status : SaleStatus
  deriving DecidableEq, Repr

/-- Structure `PaymentDetails` from `src/types.ts`: the nine named tender buckets. -/
structure PaymentDetails where
  cash : ℚ
  debit : ℚ
  credit : ℚ
  ticket : ℚ
  pix : ℚ
  transfer : ℚ
  boleto : ℚ
  cheque : ℚ
  creditStore : ℚ
  deriving DecidableEq, Repr

/-! ## Pricing engine (`src/pages/Sales.tsx`, lines 107-113) -/

/-- Source: `subTotal = cart.reduce((acc, item) => acc + item.total, 0)`
(`Sales.tsx` line 108). -/
def subTotal (cart : List SaleItem) : ℚ :=
  cart.foldl (fun acc item => acc + item.total) 0

/-- Source: `totalGeneral = Math.max(0, subTotal - posDiscount + posFreight + posOther)`
(`Sales.tsx` line 109). -/
def totalGeneral (cart : List SaleItem) (posDiscount posFreight posOther : ℚ) : ℚ :=
  max 0 (subTotal cart - posDiscount + posFreight + posOther)

/-- Source: `totalPaid = Object.values(payments).reduce((acc, val) => acc + val, 0)`
(`Sales.tsx` line 112). -/
def totalPaid (p : PaymentDetails) : ℚ :=
  p.cash + p.debit + p.credit + p.pix + p.boleto + p.creditStore + p.ticket +
    p.transfer + p.cheque

/-- A `reduce`-style left fold of `+` over a projection equals the sum of the
mapped list, shifted by the initial accumulator. -/
theorem foldl_add_eq_sum {α : Type} (f : α → ℚ) (l : List α) (init : ℚ) :
    l.foldl (fun acc x => acc + f x) init = init + (l.map f).sum := by
  induction l generalizing init with
  | nil => simp
  | cons x xs ih =>
    simp only [List.foldl_cons, List.map_cons, List.sum_cons, ih]
    ring

theorem subTotal_eq_sum (cart : List SaleItem) :
    subTotal cart = (cart.map SaleItem.total).sum := by
  simpa using foldl_add_eq_sum SaleItem.total cart 0

/-- C1: For every cart and order-level discount, freight and other-costs
amounts, the computed order total equals
`max(0, Σ line.total − orderDiscount + freight + otherCosts)`. -/
theorem totalGeneral_spec (cart : List SaleItem) (posDiscount posFreight posOther : ℚ) :
    totalGeneral cart posDiscount posFreight posOther =
      max 0 ((cart.map SaleItem.total).sum - posDiscount + posFreight + posOther) := by
  rw [totalGeneral, subTotal_eq_sum]

/-! ## Per-line price editing (`src/pages/Sales.tsx`, `saveEditItem`, lines 188-220)

`saveEditItem` runs only when `editItemData.quantity` is truthy; the item
passed here is the cart item merged with the edited fields (`editItemData`
is a full copy of the item, so the merge yields `editItemData` itself). -/

/-- Source: `const original = editItemData.originalPrice || editItemData.unitPrice || 0`
(JS `||` on numbers: first non-zero value, else `0`). -/
def editOriginal (item : SaleItem) : ℚ :=
  if item.originalPrice ≠ 0 then item.originalPrice
  else if item.unitPrice ≠ 0 then item.unitPrice
  else 0

/-- Handler `saveEditItem` (`Sales.tsx` lines 188-220): revert an empty/zero price to
the original, clamp below `original * 0.94`, and recompute the line total as
`quantity * finalPrice`. -/
def saveEditItem (item : SaleItem) : SaleItem :=
  let original := editOriginal item
  let p1 := if item.unitPrice = 0 then original else item.unitPrice
  let minAllowedPrice := original * (94 / 100)
  let finalPrice := if p1 < minAllowedPrice then minAllowedPrice else p1
  { item with unitPrice := finalPrice, total := item.quantity * finalPrice }

/-! ## Discount modal (`src/pages/Sales.tsx`, lines 222-303) -/

/-- Source: `totalOriginalValue = cart.reduce((acc, item) =>
acc + item.quantity * (item.originalPrice || item.unitPrice), 0)`. -/
def totalOriginalValue (cart : List SaleItem) : ℚ :=
  cart.foldl
    (fun acc item =>
      acc + item.quantity *
        (if item.originalPrice ≠ 0 then item.originalPrice else item.unitPrice))
    0

/-- Source: `discountFromItems = totalOriginalValue - currentSubTotal`. -/
def discountFromItems (cart : List SaleItem) : ℚ :=
  totalOriginalValue cart - subTotal cart

/-- The effective combined percent formula shared by the modal handlers and
`confirmDiscount`: `totalOriginalValue > 0 ? totalDiscount / totalOriginalValue
* 100 : 0` with `totalDiscount = discountFromItems + globalDiscount`. -/
def combinedPercent (cart : List SaleItem) (globalDiscount : ℚ) : ℚ :=
  if 0 < totalOriginalValue cart then
    (discountFromItems cart + globalDiscount) / totalOriginalValue cart * 100
  else 0

/-- The discount modal's state: the absolute global-discount amount
(`tempDiscountValue`) and the displayed combined percent
(`tempDiscountPercent`).  The third view, the target post-discount total, is
displayed as `subTotal - tempDiscountValue` (`Sales.tsx` line 1142). -/
structure DiscountModal where
  value : ℚ
  percent : ℚ
  deriving DecidableEq, Repr

/-- Handler `handleDiscountValueChange` (`Sales.tsx` lines 243-253). -/
def handleDiscountValueChange (cart : List SaleItem) (val : ℚ) : DiscountModal :=
  ⟨val, combinedPercent cart val⟩

/-- Handler `handleDiscountPercentChange` (`Sales.tsx` lines 255-267): back-solve the
needed global discount from the requested combined percent, clamped at `0`. -/
def handleDiscountPercentChange (cart : List SaleItem) (pct : ℚ) : DiscountModal :=
  let targetTotalDiscount := totalOriginalValue cart * pct / 100
  let neededGlobalDiscount := max 0 (targetTotalDiscount - discountFromItems cart)
  ⟨neededGlobalDiscount, pct⟩

/-- Handler `handleDiscountTotalChange` (`Sales.tsx` lines 269-284): back-solve the
global discount from the target post-discount total, clamped at `0`. -/
def handleDiscountTotalChange (cart : List SaleItem) (totalComDesconto : ℚ) : DiscountModal :=
  let newGlobalDiscount := max 0 (subTotal cart - totalComDesconto)
  ⟨newGlobalDiscount, combinedPercent cart newGlobalDiscount⟩

/-- Handler `confirmDiscount` (`Sales.tsx` lines 286-303).  Returns the new stored
order discount (`posDiscount`) paired with `some finalPercent` when the
policy gate rejects (token required), `none` on success. -/
def confirmDiscount (cart : List SaleItem) (posDiscount tempDiscountValue : ℚ)
    (discountToken : String) : ℚ × Option ℚ :=
  let finalPercent := combinedPercent cart tempDiscountValue
  if 6 < finalPercent ∧ discountToken.length < 3 then (posDiscount, some finalPercent)
  else (tempDiscountValue, none)

/-! ## Cart composition (`src/pages/Sales.tsx`, `handleAddItem`, lines 140-174)

The handler never writes to the product store; the store is threaded through
unchanged to make that explicit. -/

/-- Handler `handleAddItem` (`Sales.tsx` lines 140-174): check the selected product's
snapshot stock against the quantity already in the cart plus the new quantity,
then append the new line (capturing `originalPrice` from the catalog price). -/
def handleAddItem (products : List Product) (cart : List SaleItem)
    (selectedProduct : Product) (itemQty itemPrice : ℚ) :
    List Product × Except String (List SaleItem) :=
  let currentInCart :=
    (cart.filter (fun i => i.productId = selectedProduct.id)).foldl
      (fun acc i => acc + i.quantity) 0
  if selectedProduct.stock < currentInCart + itemQty then
    (products, .error "Estoque insuficiente!")
  else
    (products,
     .ok (cart ++ [{ productId := selectedProduct.id, quantity := itemQty,
                     unitPrice := itemPrice, originalPrice := selectedProduct.price,
                     total := itemPrice * itemQty }]))

/-! ## Submission-time payment validation (`src/pages/Sales.tsx`,
`handleSubmitSale`, lines 359-428) -/

/-- The distinct failure outcomes of `handleSubmitSale`. -/
inductive SubmitError where
  | emptyCart
  | noPayment
  | mismatch (diff : ℚ)
  deriving DecidableEq, Repr

/-- Handler `handleSubmitSale` (`Sales.tsx` lines 359-428): empty-cart check, then
(non-budget only) payment validation against `totalGeneral`, then persistence
with status `BUDGET` or `PENDING`.  `mismatch` carries the signed difference
`totalGeneral - currentTotalPaid` (positive: shortfall "Falta", negative:
overage "Sobra"). -/
def handleSubmitSale (cart : List SaleItem) (posDiscount posFreight posOther : ℚ)
    (payments : PaymentDetails) (asBudget : Bool) : Except SubmitError SaleStatus :=
  if cart.isEmpty then .error SubmitError.emptyCart
  else if asBudget then .ok SaleStatus.BUDGET
  else
    let tg := totalGeneral cart posDiscount posFreight posOther
    let currentTotalPaid := totalPaid payments
    if 0 < tg then
      if currentTotalPaid = 0 then .error SubmitError.noPayment
      else if 5 / 100 < |currentTotalPaid - tg| then
        .error (SubmitError.mismatch (tg - currentTotalPaid))
      else .ok SaleStatus.PENDING
    else .ok SaleStatus.PENDING

/-! ## Stock ledger and lifecycle (`src/unnamed/part_003`, lines 259-344)

The Supabase product table is modelled as a `List Product`; a row read
(`select('stock').eq('id', pid).single()`) is `findProduct`, and a row write
(`update({stock}).eq('id', pid)`) is `updateStock`.  The per-line loops run
sequentially and commit each write before the next read, so a failure leaves
the writes already issued in place: the loops return the (possibly partial)
store state alongside the error. -/

/-- Read `select(...).eq('id', pid).single()` on the products table: the first
row whose `id` matches (`id` is the table's primary key). -/
def findProduct : List Product → String → Option Product
  | [], _ => none
  | p :: ps, pid => if p.id = pid then some p else findProduct ps pid

/-- Write `update({ stock: newStock }).eq('id', pid)` on the products table. -/
def updateStock (products : List Product) (pid : String) (newStock : ℚ) : List Product :=
  products.map (fun p => if p.id = pid then { p with stock := newStock } else p)

/-- The stock a read of product `pid` would observe. -/
def stockOf (products : List Product) (pid : String) : Option ℚ :=
  (findProduct products pid).map Product.stock

/-- The per-line decrement loop of `completeSale` (`part_003` lines 291-299):
skip a line whose product row is missing; otherwise fail on `stock < quantity`
or write `stock - quantity` and continue. -/
def decrementStockLoop : List Product → List SaleItem → List Product × Option String
  | products, [] => (products, none)
  | products, item :: rest =>
    match findProduct products item.productId with
    | none => decrementStockLoop products rest
    | some prod =>
      if prod.stock < item.quantity then
        (products, some "Estoque insuficiente para o produto no servidor.")
      else
        decrementStockLoop (updateStock products item.productId (prod.stock - item.quantity)) rest

/-- The per-line restock loop of `cancelSale` (`part_003` lines 326-333):
skip a line whose product row is missing; otherwise write `stock + quantity`. -/
def restoreStockLoop : List Product → List SaleItem → List Product
  | products, [] => products
  | products, item :: rest =>
    match findProduct products item.productId with
    | none => restoreStockLoop products rest
    | some prod =>
      restoreStockLoop (updateStock products item.productId (prod.stock + item.quantity)) rest

/-- The discount-distribution block of `completeSale` (`part_003` lines
267-286): when `sale.discount > 0` and the item-total sum is positive,
multiply every unit price by `factor = (subTotal - discount) / subTotal`,
recompute each total as `netUnitPrice * quantity`, and clear the discount. -/
def prorateDiscount (sale : Sale) : List SaleItem × ℚ :=
  if 0 < sale.discount then
    let itemsSubTotal := subTotal sale.items
    if 0 < itemsSubTotal then
      let factor := (itemsSubTotal - sale.discount) / itemsSubTotal
      (sale.items.map (fun item =>
        { item with unitPrice := item.unitPrice * factor,
                    total := item.unitPrice * factor * item.quantity }), 0)
    else (sale.items, sale.discount)
  else (sale.items, sale.discount)

/-- Operation `completeSale` (`part_003` lines 259-318): reject an already-`COMPLETED`
sale, distribute the order discount into the lines, run the stock decrement
loop (partial writes survive a failure), then persist the sale as `COMPLETED`
with the final items and zeroed discount.  The cashier identity and timestamp
fields written alongside are not part of the model. -/
def completeSale (products : List Product) (sale : Sale) :
    List Product × Except String Sale :=
  if sale.status = SaleStatus.COMPLETED then (products, .error "Venda já concluída")
  else
    let fin := prorateDiscount sale
    match decrementStockLoop products fin.1 with
    | (products2, some err) => (products2, .error err)
    | (products2, none) =>
      (products2,
       .ok { sale with status := SaleStatus.COMPLETED, items := fin.1, discount := fin.2 })

/-- Operation `cancelSale` (`part_003` lines 320-344): restock every line if (and only
if) the sale is currently `COMPLETED`, then write status `CANCELLED`. -/
def cancelSale (products : List Product) (sale : Sale) : List Product × Sale :=
  let products2 :=
    if sale.status = SaleStatus.COMPLETED then restoreStockLoop products sale.items
    else products
  (products2, { sale with status := SaleStatus.CANCELLED })

/-! ## Per-line editing: price floor (C6) -/

/-- The saved unit price: the original on empty/zero input, otherwise the
entered price clamped from below at 94% of the original. -/
theorem saveEditItem_unitPrice (item : SaleItem) (hop : 0 ≤ item.originalPrice)
    (hup : 0 ≤ item.unitPrice) :
    (saveEditItem item).unitPrice =
      if item.unitPrice = 0 then item.originalPrice
      else max item.unitPrice (item.originalPrice * (94 / 100)) := by
  rcases eq_or_ne item.unitPrice 0 with hz | hz
  · rcases eq_or_ne item.originalPrice 0 with ho | ho
    · simp [saveEditItem, editOriginal, hz, ho]
    · have hop' : 0 < item.originalPrice := lt_of_le_of_ne hop (Ne.symm ho)
      have hnlt : ¬ item.originalPrice < item.originalPrice * (94 / 100) := by nlinarith
      simp [saveEditItem, editOriginal, hz, ho, hnlt]
  · rcases eq_or_ne item.originalPrice 0 with ho | ho
    · have hup' : 0 < item.unitPrice := lt_of_le_of_ne hup (Ne.symm hz)
      have hnlt : ¬ item.unitPrice < item.unitPrice * (94 / 100) := by nlinarith
      simp [saveEditItem, editOriginal, hz, ho, hnlt, max_eq_left hup]
    · by_cases hlt : item.unitPrice < item.originalPrice * (94 / 100)
      · simp [saveEditItem, editOriginal, hz, ho, hlt, max_eq_right (le_of_lt hlt)]
      · simp [saveEditItem, editOriginal, hz, ho, hlt, max_eq_left (not_lt.mp hlt)]

/-- C6: For every line edit with a positive quantity and (as produced by the
money inputs) non-negative prices: an entered zero/empty unit price reverts to
`originalPrice`; a non-zero entered price is clamped below at
`originalPrice * 0.94`; the resulting unit price is at least
`0.94 * originalPrice`; and the saved line total is the resulting unit price
times the quantity. -/
theorem saveEditItem_spec (item : SaleItem) (hq : 0 < item.quantity)
    (hop : 0 ≤ item.originalPrice) (hup : 0 ≤ item.unitPrice) :
    (item.unitPrice = 0 → (saveEditItem item).unitPrice = item.originalPrice) ∧
    (item.unitPrice ≠ 0 →
      (saveEditItem item).unitPrice = max item.unitPrice (item.originalPrice * (94 / 100))) ∧
    94 / 100 * item.originalPrice ≤ (saveEditItem item).unitPrice ∧
    (saveEditItem item).total = (saveEditItem item).unitPrice * item.quantity := by
  have hkey := saveEditItem_unitPrice item hop hup
  refine ⟨fun hz => by rw [hkey, if_pos hz], fun hz => by rw [hkey, if_neg hz], ?_, ?_⟩
  · rw [hkey]
    split_ifs with hz
    · nlinarith
    · have h := le_max_right item.unitPrice (item.originalPrice * (94 / 100))
      linarith [le_trans (by linarith : 94 / 100 * item.originalPrice ≤
        item.originalPrice * (94 / 100)) h]
  · simp only [saveEditItem]
    exact mul_comm _ _

/-- Witness for `saveEditItem_spec` at a concrete line: quantity 2, original
price 100, entered price 90 (below the 6% floor, so clamped to 94). -/
theorem saveEditItem_spec_witness :
    (saveEditItem ⟨"p1", 2, 90, 100, 180⟩).unitPrice =
      max 90 ((100 : ℚ) * (94 / 100)) ∧
    94 / 100 * (100 : ℚ) ≤ (saveEditItem ⟨"p1", 2, 90, 100, 180⟩).unitPrice ∧
    (saveEditItem ⟨"p1", 2, 90, 100, 180⟩).total =
      (saveEditItem ⟨"p1", 2, 90, 100, 180⟩).unitPrice * 2 := by
  have h := saveEditItem_spec ⟨"p1", 2, 90, 100, 180⟩ (by norm_num) (by norm_num) (by norm_num)
  exact ⟨h.2.1 (by norm_num), h.2.2.1, h.2.2.2⟩

/-! ## Discount authorization gate (C4) -/

/-- C4: Confirming an order-level discount fails with a policy error naming
the computed combined percentage — leaving the stored discount unchanged —
exactly when that percentage exceeds 6 and the token is shorter than 3
characters; at 6% or below it succeeds for any token, including the empty
one. -/
theorem confirmDiscount_gate (cart : List SaleItem) (posDiscount tempDiscountValue : ℚ)
    (discountToken : String) :
    (6 < combinedPercent cart tempDiscountValue → discountToken.length < 3 →
      confirmDiscount cart posDiscount tempDiscountValue discountToken =
        (posDiscount, some (combinedPercent cart tempDiscountValue))) ∧
    (combinedPercent cart tempDiscountValue ≤ 6 →
      confirmDiscount cart posDiscount tempDiscountValue discountToken =
        (tempDiscountValue, none)) := by
  constructor
  · intro h1 h2
    simp [confirmDiscount, h1, h2]
  · intro h
    simp [confirmDiscount, not_lt.mpr h]

/-- Witness for `confirmDiscount_gate`: a one-line cart (original value 100)
with a proposed discount of 10 (10% > 6%, empty token: rejected, stored
discount 0 kept) and of 5 (5% ≤ 6%, empty token: accepted). -/
theorem confirmDiscount_gate_witness :
    confirmDiscount [⟨"p1", 1, 100, 100, 100⟩] 0 10 "" =
      (0, some (combinedPercent [⟨"p1", 1, 100, 100, 100⟩] 10)) ∧
    confirmDiscount [⟨"p1", 1, 100, 100, 100⟩] 0 5 "" = (5, none) :=
  ⟨(confirmDiscount_gate [⟨"p1", 1, 100, 100, 100⟩] 0 10 "").1
      (by norm_num [combinedPercent, discountFromItems, totalOriginalValue, subTotal])
      (by decide),
   (confirmDiscount_gate [⟨"p1", 1, 100, 100, 100⟩] 0 5 "").2
      (by norm_num [combinedPercent, discountFromItems, totalOriginalValue, subTotal])⟩

/-! ## Payment validation at submission (C5) -/

/-- C5: For a non-empty cart, non-budget submission: a positive total with
zero tendered fails with the no-payment error; a positive total with a
non-zero tendered amount off by more than 0.05 fails with the mismatch error
carrying the signed difference `total - paid`; a zero total always passes
payment validation; and a budget submission always succeeds regardless of
payments. -/
theorem handleSubmitSale_payment_validation (cart : List SaleItem)
    (posDiscount posFreight posOther : ℚ) (payments : PaymentDetails) :
    (cart ≠ [] → 0 < totalGeneral cart posDiscount posFreight posOther →
      totalPaid payments = 0 →
      handleSubmitSale cart posDiscount posFreight posOther payments false =
        .error SubmitError.noPayment) ∧
    (cart ≠ [] → 0 < totalGeneral cart posDiscount posFreight posOther →
      totalPaid payments ≠ 0 →
      5 / 100 < |totalPaid payments - totalGeneral cart posDiscount posFreight posOther| →
      handleSubmitSale cart posDiscount posFreight posOther payments false =
        .error (SubmitError.mismatch
          (totalGeneral cart posDiscount posFreight posOther - totalPaid payments))) ∧
    (cart ≠ [] → totalGeneral cart posDiscount posFreight posOther = 0 →
      handleSubmitSale cart posDiscount posFreight posOther payments false =
        .ok SaleStatus.PENDING) ∧
    (cart ≠ [] →
      handleSubmitSale cart posDiscount posFreight posOther payments true =
        .ok SaleStatus.BUDGET) := by
  refine ⟨fun hne h1 h2 => ?_, fun hne h1 h2 h3 => ?_, fun hne h1 => ?_, fun hne => ?_⟩ <;>
    cases cart with
    | nil => exact absurd rfl hne
    | cons a l => ?_
  · simp [handleSubmitSale, h1, h2]
  · simp [handleSubmitSale, h1, h2, h3]
  · simp [handleSubmitSale, h1]
  · simp [handleSubmitSale]

/-- Witness for `handleSubmitSale_payment_validation`: a ten-unit sale with
nothing tendered (no-payment error), with 5 tendered (mismatch error), a
zero-total sale (passes), and a budget submission (passes). -/
theorem handleSubmitSale_payment_validation_witness :
    handleSubmitSale [⟨"p1", 1, 10, 10, 10⟩] 0 0 0 ⟨0, 0, 0, 0, 0, 0, 0, 0, 0⟩ false =
      .error SubmitError.noPayment ∧
    handleSubmitSale [⟨"p1", 1, 10, 10, 10⟩] 0 0 0 ⟨5, 0, 0, 0, 0, 0, 0, 0, 0⟩ false =
      .error (SubmitError.mismatch
        (totalGeneral [⟨"p1", 1, 10, 10, 10⟩] 0 0 0 - totalPaid ⟨5, 0, 0, 0, 0, 0, 0, 0, 0⟩)) ∧
    handleSubmitSale [⟨"p1", 1, 0, 10, 0⟩] 0 0 0 ⟨5, 0, 0, 0, 0, 0, 0, 0, 0⟩ false =
      .ok SaleStatus.PENDING ∧
    handleSubmitSale [⟨"p1", 1, 10, 10, 10⟩] 0 0 0 ⟨0, 0, 0, 0, 0, 0, 0, 0, 0⟩ true =
      .ok SaleStatus.BUDGET :=
  ⟨(handleSubmitSale_payment_validation [⟨"p1", 1, 10, 10, 10⟩] 0 0 0
      ⟨0, 0, 0, 0, 0, 0, 0, 0, 0⟩).1 (by simp) (by norm_num [totalGeneral, subTotal])
      (by norm_num [totalPaid]),
   (handleSubmitSale_payment_validation [⟨"p1", 1, 10, 10, 10⟩] 0 0 0
      ⟨5, 0, 0, 0, 0, 0, 0, 0, 0⟩).2.1 (by simp) (by norm_num [totalGeneral, subTotal])
      (by norm_num [totalPaid]) (by norm_num [totalPaid, totalGeneral, subTotal]),
   (handleSubmitSale_payment_validation [⟨"p1", 1, 0, 10, 0⟩] 0 0 0
      ⟨5, 0, 0, 0, 0, 0, 0, 0, 0⟩).2.2.1 (by simp) (by norm_num [totalGeneral, subTotal]),
   (handleSubmitSale_payment_validation [⟨"p1", 1, 10, 10, 10⟩] 0 0 0
      ⟨0, 0, 0, 0, 0, 0, 0, 0, 0⟩).2.2.2 (by simp)⟩

/-! ## Discount modal round-trip (C7) -/

/-- C7 counterexample: on a cart whose single line already carries the full
6% item-level discount (original 100, unit price 94), editing the combined
percent to 0 stores the triple (amount 0, percent 0), but feeding the derived
amount 0 back through the amount handler yields percent 6 — the percent
handler clamps the back-solved amount at zero without reconciling the stored
percent, so the three views are not round-trip consistent. -/
theorem discountModal_roundTrip_counterexample :
    handleDiscountPercentChange [⟨"p1", 1, 94, 100, 94⟩] 0 = ⟨0, 0⟩ ∧
    handleDiscountValueChange [⟨"p1", 1, 94, 100, 94⟩]
        (handleDiscountPercentChange [⟨"p1", 1, 94, 100, 94⟩] 0).value = ⟨0, 6⟩ ∧
    (6 : ℚ) ≠ 0 := by
  refine ⟨?_, ?_, by norm_num⟩ <;>
    norm_num [handleDiscountPercentChange, handleDiscountValueChange, combinedPercent,
      discountFromItems, totalOriginalValue, subTotal, DiscountModal.mk.injEq]

/-- C7 (amended): on a cart with positive total original value, the three
discount-modal views are exactly round-trip consistent whenever the clamping
`max 0 _` in the edited handler does not engage: a non-negative edited amount
round-trips through the percent view; an edited percent no smaller than the
item-level discount percent round-trips through the amount view; an edited
target total at most the current subtotal round-trips through the total view;
and the amount derived from a target-total edit always round-trips through
the amount view. -/
theorem discountModal_roundTrip (cart : List SaleItem) (v pct T : ℚ)
    (htov : 0 < totalOriginalValue cart) :
    (0 ≤ v →
      handleDiscountPercentChange cart (handleDiscountValueChange cart v).percent =
        handleDiscountValueChange cart v) ∧
    (discountFromItems cart ≤ totalOriginalValue cart * pct / 100 →
      handleDiscountValueChange cart (handleDiscountPercentChange cart pct).value =
        handleDiscountPercentChange cart pct) ∧
    (T ≤ subTotal cart →
      handleDiscountTotalChange cart
          (subTotal cart - (handleDiscountTotalChange cart T).value) =
        handleDiscountTotalChange cart T) ∧
    (handleDiscountValueChange cart (handleDiscountTotalChange cart T).value =
      handleDiscountTotalChange cart T) := by
  have htov' : totalOriginalValue cart ≠ 0 := ne_of_gt htov
  refine ⟨fun hv => ?_, fun hpct => ?_, fun hT => ?_, ?_⟩
  · have key : totalOriginalValue cart * combinedPercent cart v / 100 -
        discountFromItems cart = v := by
      rw [combinedPercent, if_pos htov]
      field_simp
    simp only [handleDiscountValueChange, handleDiscountPercentChange, key,
      max_eq_right hv]
  · have hPCeq : handleDiscountPercentChange cart pct =
        ⟨totalOriginalValue cart * pct / 100 - discountFromItems cart, pct⟩ := by
      simp only [handleDiscountPercentChange]
      congr 1
      exact max_eq_right (by linarith)
    have key : combinedPercent cart
        (totalOriginalValue cart * pct / 100 - discountFromItems cart) = pct := by
      rw [combinedPercent, if_pos htov]
      field_simp
      ring
    rw [hPCeq]
    simp only [handleDiscountValueChange, key]
  · have hval : (handleDiscountTotalChange cart T).value = subTotal cart - T := by
      simp only [handleDiscountTotalChange]
      exact max_eq_right (by linarith)
    rw [hval]
    congr 1
    ring
  · simp only [handleDiscountValueChange, handleDiscountTotalChange]

/-- Witness for `discountModal_roundTrip` on an undiscounted one-line cart of
original value 100, with amount edit 10, percent edit 5 and target-total edit
90. -/
theorem discountModal_roundTrip_witness :
    handleDiscountPercentChange [⟨"p1", 1, 100, 100, 100⟩]
        (handleDiscountValueChange [⟨"p1", 1, 100, 100, 100⟩] 10).percent =
      handleDiscountValueChange [⟨"p1", 1, 100, 100, 100⟩] 10 ∧
    handleDiscountValueChange [⟨"p1", 1, 100, 100, 100⟩]
        (handleDiscountPercentChange [⟨"p1", 1, 100, 100, 100⟩] 5).value =
      handleDiscountPercentChange [⟨"p1", 1, 100, 100, 100⟩] 5 ∧
    handleDiscountTotalChange [⟨"p1", 1, 100, 100, 100⟩]
        (subTotal [⟨"p1", 1, 100, 100, 100⟩] -
          (handleDiscountTotalChange [⟨"p1", 1, 100, 100, 100⟩] 90).value) =
      handleDiscountTotalChange [⟨"p1", 1, 100, 100, 100⟩] 90 ∧
    handleDiscountValueChange [⟨"p1", 1, 100, 100, 100⟩]
        (handleDiscountTotalChange [⟨"p1", 1, 100, 100, 100⟩] 90).value =
      handleDiscountTotalChange [⟨"p1", 1, 100, 100, 100⟩] 90 := by
  have h := discountModal_roundTrip [⟨"p1", 1, 100, 100, 100⟩] 10 5 90
    (by norm_num [totalOriginalValue])
  exact ⟨h.1 (by norm_num),
    h.2.1 (by norm_num [discountFromItems, totalOriginalValue, subTotal]),
    h.2.2.1 (by norm_num [subTotal]), h.2.2.2⟩

/-! ## Completion status gate (C3) -/

/-- C3 counterexample: `completeSale` happily moves a `BUDGET` sale to
`COMPLETED` (decrementing stock on the way) — the only status it rejects is
`COMPLETED` itself. -/
theorem completeSale_from_budget_counterexample :
    completeSale [⟨"p1", 10, 5⟩] ⟨"s1", [⟨"p1", 1, 10, 10, 10⟩], 0, SaleStatus.BUDGET⟩ =
      ([⟨"p1", 10, 4⟩],
       Except.ok ⟨"s1", [⟨"p1", 1, 10, 10, 10⟩], 0, SaleStatus.COMPLETED⟩) := by
  have hb : SaleStatus.BUDGET ≠ SaleStatus.COMPLETED := by decide
  norm_num [completeSale, prorateDiscount, decrementStockLoop, findProduct, updateStock,
    subTotal, hb]

/-- C3 (amended): `completeSale` fails with the already-settled error, leaving
the store untouched, exactly when the sale is already `COMPLETED`; on any
other status (`PENDING`, `BUDGET` or `CANCELLED` alike) it behaves as it does
on a `PENDING` sale, and every successful completion ends in status
`COMPLETED`. -/
theorem completeSale_status_gate (products : List Product) (sale : Sale) :
    (sale.status = SaleStatus.COMPLETED →
      completeSale products sale = (products, Except.error "Venda já concluída")) ∧
    (sale.status ≠ SaleStatus.COMPLETED →
      completeSale products sale =
        completeSale products { sale with status := SaleStatus.PENDING }) ∧
    (∀ products2 sale2, completeSale products sale = (products2, Except.ok sale2) →
      sale2.status = SaleStatus.COMPLETED) := by
  refine ⟨fun h => by rw [completeSale, if_pos h], fun h => ?_, fun products2 sale2 h => ?_⟩
  · have h2 : ({ sale with status := SaleStatus.PENDING } : Sale).status ≠
        SaleStatus.COMPLETED := by simp
    have hpror : prorateDiscount { sale with status := SaleStatus.PENDING } =
        prorateDiscount sale := by
      simp [prorateDiscount]
    rw [completeSale, completeSale, if_neg h, if_neg h2, hpror]
  · rw [completeSale] at h
    by_cases hs : sale.status = SaleStatus.COMPLETED
    · rw [if_pos hs] at h
      simp at h
    · rw [if_neg hs] at h
      simp only [] at h
      split at h
      · simp at h
      · simp only [Prod.mk.injEq, Except.ok.injEq] at h
        rw [← h.2]

/-- Witness for `completeSale_status_gate`: completing an already-`COMPLETED`
sale fails with the already-settled error and leaves the product store
unchanged; completing the same sale in status `CANCELLED` behaves exactly as
in status `PENDING`. -/
theorem completeSale_status_gate_witness :
    completeSale [⟨"p1", 10, 5⟩] ⟨"s0", [⟨"p1", 1, 10, 10, 10⟩], 0, SaleStatus.COMPLETED⟩ =
      ([⟨"p1", 10, 5⟩], Except.error "Venda já concluída") ∧
    completeSale [⟨"p1", 10, 5⟩] ⟨"s0", [⟨"p1", 1, 10, 10, 10⟩], 0, SaleStatus.CANCELLED⟩ =
      completeSale [⟨"p1", 10, 5⟩] ⟨"s0", [⟨"p1", 1, 10, 10, 10⟩], 0, SaleStatus.PENDING⟩ :=
  ⟨(completeSale_status_gate [⟨"p1", 10, 5⟩]
      ⟨"s0", [⟨"p1", 1, 10, 10, 10⟩], 0, SaleStatus.COMPLETED⟩).1 rfl,
   (completeSale_status_gate [⟨"p1", 10, 5⟩]
      ⟨"s0", [⟨"p1", 1, 10, 10, 10⟩], 0, SaleStatus.CANCELLED⟩).2.1 (by decide)⟩

/-! ## Discount proration at completion (C2) -/

/-- C2 counterexample: the proration guard is `discount > 0`, not
`discount ≠ 0`.  Completing a sale with the non-zero discount `-1` and
positive subtotal 10 skips proration entirely: the line's unit price stays 10
(instead of being multiplied by `factor = (10 - (-1)) / 10`) and the stored
discount stays `-1` instead of being set to zero. -/
theorem completeSale_nonzero_discount_counterexample :
    (completeSale [⟨"p1", 10, 5⟩]
        ⟨"s2", [⟨"p1", 1, 10, 10, 10⟩], -1, SaleStatus.PENDING⟩).2 =
      Except.ok ⟨"s2", [⟨"p1", 1, 10, 10, 10⟩], -1, SaleStatus.COMPLETED⟩ ∧
    (-1 : ℚ) ≠ 0 ∧ (0 : ℚ) < subTotal [⟨"p1", 1, 10, 10, 10⟩] := by
  refine ⟨?_, by norm_num, by norm_num [subTotal]⟩
  have hp : SaleStatus.PENDING ≠ SaleStatus.COMPLETED := by decide
  norm_num [completeSale, prorateDiscount, decrementStockLoop, findProduct, updateStock,
    subTotal, hp]

/-- C2 (amended): for a sale with a *positive* order-level discount, positive
item-total subtotal, and line totals satisfying the data-model invariant
`total = unitPrice * quantity`, every successful completion rewrites each
line's unit price to `unitPrice * factor` with
`factor = (subtotal - discount) / subtotal`, sets each total to the new unit
price times the quantity, zeroes the stored discount, and the rewritten line
totals sum exactly to `subtotal - discount`. -/
theorem completeSale_prorates_discount (products : List Product) (sale : Sale)
    (products2 : List Product) (sale2 : Sale)
    (hd : 0 < sale.discount)
    (hS : 0 < subTotal sale.items)
    (hinv : ∀ item ∈ sale.items, item.total = item.unitPrice * item.quantity)
    (hok : completeSale products sale = (products2, Except.ok sale2)) :
    sale2.items = sale.items.map (fun item =>
      { item with
        unitPrice := item.unitPrice *
          ((subTotal sale.items - sale.discount) / subTotal sale.items),
        total := item.unitPrice *
          ((subTotal sale.items - sale.discount) / subTotal sale.items) *
          item.quantity }) ∧
    sale2.discount = 0 ∧
    (sale2.items.map SaleItem.total).sum = subTotal sale.items - sale.discount := by
  have hS0 : subTotal sale.items ≠ 0 := ne_of_gt hS
  have hpror : prorateDiscount sale =
      (sale.items.map (fun item =>
        { item with
          unitPrice := item.unitPrice *
            ((subTotal sale.items - sale.discount) / subTotal sale.items),
          total := item.unitPrice *
            ((subTotal sale.items - sale.discount) / subTotal sale.items) *
            item.quantity }), 0) := by
    rw [prorateDiscount, if_pos hd]
    simp only [if_pos hS]
  by_cases hs : sale.status = SaleStatus.COMPLETED
  · rw [completeSale, if_pos hs] at hok
    simp at hok
  · rw [completeSale, if_neg hs] at hok
    simp only [] at hok
    split at hok
    · simp at hok
    · simp only [Prod.mk.injEq, Except.ok.injEq] at hok
      obtain ⟨-, hsale⟩ := hok
      subst hsale
      refine ⟨by rw [hpror], by rw [hpror], ?_⟩
      rw [hpror]
      simp only [List.map_map]
      have hcong : sale.items.map
          (SaleItem.total ∘ fun item =>
            { item with
              unitPrice := item.unitPrice *
                ((subTotal sale.items - sale.discount) / subTotal sale.items),
              total := item.unitPrice *
                ((subTotal sale.items - sale.discount) / subTotal sale.items) *
                item.quantity }) =
          sale.items.map (fun item =>
            ((subTotal sale.items - sale.discount) / subTotal sale.items) *
              item.total) := by
        refine List.map_congr_left (fun item hm => ?_)
        simp only [Function.comp]
        rw [hinv item hm]
        ring
      rw [hcong, List.sum_map_mul_left, ← subTotal_eq_sum,
        div_mul_cancel₀ _ hS0]

/-- Witness for `completeSale_prorates_discount`: a pending sale with one
line (quantity 2, unit price 10, total 20) and order discount 5 completes
with `factor = 3/4`: unit price `15/2`, total 15, discount zeroed, and the
new totals sum to `20 - 5`. -/
theorem completeSale_prorates_discount_witness :
    ((⟨"s3", [⟨"p1", 2, 15 / 2, 10, 15⟩], 0, SaleStatus.COMPLETED⟩ : Sale).items.map
      SaleItem.total).sum =
      subTotal [⟨"p1", 2, 10, 10, 20⟩] - 5 := by
  have h := completeSale_prorates_discount [⟨"p1", 10, 5⟩]
    ⟨"s3", [⟨"p1", 2, 10, 10, 20⟩], 5, SaleStatus.PENDING⟩
    [⟨"p1", 10, 3⟩] ⟨"s3", [⟨"p1", 2, 15 / 2, 10, 15⟩], 0, SaleStatus.COMPLETED⟩
    (by norm_num) (by norm_num [subTotal])
    (by intro item hm; simp only [List.mem_singleton] at hm; subst hm; norm_num)
    (by have hp : SaleStatus.PENDING ≠ SaleStatus.COMPLETED := by decide
        norm_num [completeSale, prorateDiscount, decrementStockLoop, findProduct,
          updateStock, subTotal, hp])
  exact h.2.2

/-! ## Stock-ledger helper lemmas -/

/-- The quantity a cancellation adds back to product `pid`: the sum of the
quantities of the sale's lines referencing `pid`. -/
def restockQty (items : List SaleItem) (pid : String) : ℚ :=
  ((items.filter (fun it => it.productId = pid)).map SaleItem.quantity).sum

theorem findProduct_mem {products : List Product} {pid : String} {prod : Product}
    (h : findProduct products pid = some prod) : prod ∈ products := by
  induction products with
  | nil => simp [findProduct] at h
  | cons p ps ih =>
    rw [findProduct] at h
    split_ifs at h with h0
    · cases h
      exact List.mem_cons_self _ _
    · exact List.mem_cons_of_mem _ (ih h)

theorem stockOf_updateStock (products : List Product) (pid0 pid : String) (s : ℚ) :
    stockOf (updateStock products pid0 s) pid =
      if pid = pid0 then (stockOf products pid0).map (fun _ => s)
      else stockOf products pid := by
  induction products with
  | nil => simp [stockOf, findProduct, updateStock]
  | cons p ps ih =>
    by_cases h0 : p.id = pid0 <;> by_cases h2 : pid = pid0
    · subst h2
      simp [stockOf, findProduct, updateStock, h0]
    · have h1 : ¬ p.id = pid := fun hc => h2 (hc ▸ h0 ▸ rfl)
      simp only [stockOf, findProduct, updateStock, List.map_cons] at *
      rw [if_pos h0]
      simp only [findProduct, if_neg (show ¬ (⟨p.id, p.price, s⟩ : Product).id = pid from h1)]
      simpa [stockOf, updateStock, h2] using ih
    · subst h2
      simp only [stockOf, findProduct, updateStock, List.map_cons] at *
      rw [if_neg h0]
      simp only [findProduct, if_neg h0]
      simpa [stockOf, updateStock] using ih
    · by_cases h1 : p.id = pid
      · simp [stockOf, findProduct, updateStock, h0, h1, h2]
      · simp only [stockOf, findProduct, updateStock, List.map_cons] at *
        rw [if_neg h0]
        simp only [findProduct, if_neg h1]
        simpa [stockOf, updateStock, h2] using ih

theorem restockQty_nil (pid : String) : restockQty [] pid = 0 := rfl

theorem restockQty_cons (it : SaleItem) (rest : List SaleItem) (pid : String) :
    restockQty (it :: rest) pid =
      (if it.productId = pid then it.quantity else 0) + restockQty rest pid := by
  by_cases h : it.productId = pid <;>
    simp [restockQty, List.filter_cons, h]

theorem stockOf_restoreStockLoop (items : List SaleItem) (products : List Product)
    (pid : String) :
    stockOf (restoreStockLoop products items) pid =
      (stockOf products pid).map (fun s => s + restockQty items pid) := by
  induction items generalizing products with
  | nil =>
    cases h : stockOf products pid <;> simp [restoreStockLoop, restockQty, h]
  | cons it rest ih =>
    rw [restoreStockLoop]
    cases hf : findProduct products it.productId with
    | none =>
      rw [ih]
      by_cases hp : pid = it.productId
      · subst hp
        have hn : stockOf products it.productId = none := by rw [stockOf, hf]; rfl
        simp [hn]
      · rw [restockQty_cons, if_neg (fun hc => hp hc.symm), zero_add]
    | some prod =>
      rw [ih, stockOf_updateStock]
      by_cases hp : pid = it.productId
      · rw [if_pos hp]
        subst hp
        have hsome : stockOf products it.productId = some prod.stock := by
          rw [stockOf, hf]; rfl
        rw [hsome, restockQty_cons, if_pos rfl]
        simp [add_assoc]
      · rw [if_neg hp, restockQty_cons, if_neg (fun hc => hp hc.symm), zero_add]

theorem updateStock_nonneg {products : List Product} {pid : String} {s : ℚ}
    (hpos : ∀ p ∈ products, 0 ≤ p.stock) (hs : 0 ≤ s) :
    ∀ p ∈ updateStock products pid s, 0 ≤ p.stock := by
  intro p hp
  rw [updateStock, List.mem_map] at hp
  obtain ⟨q, hq, rfl⟩ := hp
  by_cases h : q.id = pid
  · simpa [h] using hs
  · simpa [h] using hpos q hq

theorem decrementStockLoop_nonneg (items : List SaleItem) (products : List Product)
    (hpos : ∀ p ∈ products, 0 ≤ p.stock) :
    ∀ p ∈ (decrementStockLoop products items).1, 0 ≤ p.stock := by
  induction items generalizing products with
  | nil => simpa [decrementStockLoop] using hpos
  | cons it rest ih =>
    rw [decrementStockLoop]
    cases hf : findProduct products it.productId with
    | none => exact ih products hpos
    | some prod =>
      by_cases hlt : prod.stock < it.quantity
      · simpa [hlt] using hpos
      · simp only [if_neg hlt]
        exact ih _ (updateStock_nonneg hpos (sub_nonneg.mpr (not_lt.mp hlt)))

theorem restoreStockLoop_nonneg (items : List SaleItem)
    (hq : ∀ it ∈ items, 0 ≤ it.quantity) (products : List Product)
    (hpos : ∀ p ∈ products, 0 ≤ p.stock) :
    ∀ p ∈ restoreStockLoop products items, 0 ≤ p.stock := by
  induction items generalizing products with
  | nil => simpa [restoreStockLoop] using hpos
  | cons it rest ih =>
    rw [restoreStockLoop]
    cases hf : findProduct products it.productId with
    | none => exact ih (fun i hi => hq i (List.mem_cons_of_mem _ hi)) products hpos
    | some prod =>
      refine ih (fun i hi => hq i (List.mem_cons_of_mem _ hi)) _
        (updateStock_nonneg hpos ?_)
      have h1 := hpos prod (findProduct_mem hf)
      have h2 := hq it (List.mem_cons_self _ _)
      linarith

theorem completeSale_fst (products : List Product) (sale : Sale) :
    (completeSale products sale).1 =
      if sale.status = SaleStatus.COMPLETED then products
      else (decrementStockLoop products (prorateDiscount sale).1).1 := by
  rw [completeSale]
  split_ifs with hs
  · rfl
  · simp only []
    rcases h : decrementStockLoop products (prorateDiscount sale).1 with ⟨ps, e⟩
    cases e <;> simp [h]

theorem prorateDiscount_items (sale : Sale) :
    (prorateDiscount sale).1 = sale.items ∨
    (prorateDiscount sale).1 = sale.items.map (fun item =>
      { item with
        unitPrice := item.unitPrice *
          ((subTotal sale.items - sale.discount) / subTotal sale.items),
        total := item.unitPrice *
          ((subTotal sale.items - sale.discount) / subTotal sale.items) *
          item.quantity }) := by
  by_cases h1 : 0 < sale.discount
  · by_cases h2 : 0 < subTotal sale.items
    · right
      simp [prorateDiscount, h1, h2]
    · left
      simp [prorateDiscount, h1, h2]
  · left
    simp [prorateDiscount, h1]

/-! ## Cancellation restores stock (C8) -/

/-- C8: Cancelling a `COMPLETED` order adds back, to every product readable
in the store, exactly the summed quantities of the order's lines referencing
it, before the `CANCELLED` status is written; cancelling an order in any
other status leaves the product store untouched; in both cases only the
status field of the sale changes, to `CANCELLED`. -/
theorem cancelSale_stock_restore (products : List Product) (sale : Sale) :
    (sale.status = SaleStatus.COMPLETED → ∀ pid,
      stockOf ((cancelSale products sale).1) pid =
        (stockOf products pid).map (fun s => s + restockQty sale.items pid)) ∧
    (sale.status ≠ SaleStatus.COMPLETED → (cancelSale products sale).1 = products) ∧
    (cancelSale products sale).2 = { sale with status := SaleStatus.CANCELLED } := by
  refine ⟨fun h pid => ?_, fun h => ?_, rfl⟩
  · simp only [cancelSale, if_pos h]
    exact stockOf_restoreStockLoop sale.items products pid
  · simp only [cancelSale, if_neg h]

/-- Witness for `cancelSale_stock_restore`: cancelling a completed two-unit
sale raises the product's stock reading from 3 by the line quantity 2, and
cancelling the same sale while still `PENDING` leaves the store unchanged. -/
theorem cancelSale_stock_restore_witness :
    stockOf ((cancelSale [⟨"p1", 10, 3⟩]
        ⟨"s4", [⟨"p1", 2, 10, 10, 20⟩], 0, SaleStatus.COMPLETED⟩).1) "p1" =
      (stockOf [⟨"p1", 10, 3⟩] "p1").map
        (fun s => s + restockQty [⟨"p1", 2, 10, 10, 20⟩] "p1") ∧
    (cancelSale [⟨"p1", 10, 3⟩]
        ⟨"s4", [⟨"p1", 2, 10, 10, 20⟩], 5, SaleStatus.PENDING⟩).1 = [⟨"p1", 10, 3⟩] :=
  ⟨(cancelSale_stock_restore [⟨"p1", 10, 3⟩]
      ⟨"s4", [⟨"p1", 2, 10, 10, 20⟩], 0, SaleStatus.COMPLETED⟩).1 rfl "p1",
   (cancelSale_stock_restore [⟨"p1", 10, 3⟩]
      ⟨"s4", [⟨"p1", 2, 10, 10, 20⟩], 5, SaleStatus.PENDING⟩).2.1 (by decide)⟩

/-! ## Non-negative stock invariant (C9) -/

/-- C9: starting from a store in which every product's stock is non-negative,
each of the three core operations leaves every product's stock non-negative:
`handleAddItem` never writes the store at all, `completeSale` decrements a
product only after checking `stock ≥ quantity` (including on the partial
store left behind by a failed run), and `cancelSale` only adds line
quantities — non-negative by the order data model — back. -/
theorem stock_nonneg_invariant (products : List Product) (cart : List SaleItem)
    (selectedProduct : Product) (itemQty itemPrice : ℚ) (sale : Sale)
    (hpos : ∀ p ∈ products, 0 ≤ p.stock) :
    (∀ p ∈ (handleAddItem products cart selectedProduct itemQty itemPrice).1,
      0 ≤ p.stock) ∧
    (∀ p ∈ (completeSale products sale).1, 0 ≤ p.stock) ∧
    ((∀ item ∈ sale.items, 0 ≤ item.quantity) →
      ∀ p ∈ (cancelSale products sale).1, 0 ≤ p.stock) := by
  refine ⟨?_, ?_, fun hq => ?_⟩
  · simp only [handleAddItem]
    split_ifs <;> exact hpos
  · rw [completeSale_fst]
    split_ifs with hs
    · exact hpos
    · exact decrementStockLoop_nonneg _ _ hpos
  · simp only [cancelSale]
    split_ifs with hs
    · exact restoreStockLoop_nonneg _ hq _ hpos
    · exact hpos

/-- Witness for `stock_nonneg_invariant`: a store with one product of stock 3
stays non-negative under adding an item, completing a pending two-unit sale
and cancelling a completed one. -/
theorem stock_nonneg_invariant_witness :
    (∀ p ∈ (handleAddItem [⟨"p1", 10, 3⟩] [] ⟨"p1", 10, 3⟩ 1 10).1, 0 ≤ p.stock) ∧
    (∀ p ∈ (completeSale [⟨"p1", 10, 3⟩]
        ⟨"s5", [⟨"p1", 2, 10, 10, 20⟩], 0, SaleStatus.COMPLETED⟩).1, 0 ≤ p.stock) ∧
    (∀ p ∈ (cancelSale [⟨"p1", 10, 3⟩]
        ⟨"s5", [⟨"p1", 2, 10, 10, 20⟩], 0, SaleStatus.COMPLETED⟩).1, 0 ≤ p.stock) := by
  have h := stock_nonneg_invariant [⟨"p1", 10, 3⟩] [] ⟨"p1", 10, 3⟩ 1 10
    ⟨"s5", [⟨"p1", 2, 10, 10, 20⟩], 0, SaleStatus.COMPLETED⟩
    (by intro p hp
        simp only [List.mem_singleton] at hp
        subst hp
        norm_num)
  exact ⟨h.1, h.2.1, h.2.2 (by
    intro item hm
    simp only [List.mem_singleton] at hm
    subst hm
    norm_num)⟩

/-! ## Lines referencing missing products are silently skipped (C10) -/

/-- The decrement loop succeeds without touching the store when no line's
product exists. -/
theorem decrementStockLoop_all_missing (products : List Product) :
    ∀ its : List SaleItem, (∀ it ∈ its, findProduct products it.productId = none) →
      decrementStockLoop products its = (products, none) := by
  intro its
  induction its with
  | nil => intro _; rfl
  | cons a l ih =>
    intro h
    rw [decrementStockLoop, h a (List.mem_cons_self _ _)]
    exact ih (fun i hi => h i (List.mem_cons_of_mem _ hi))

/-- Proration does not change which product a line references. -/
theorem prorateDiscount_productId (sale : Sale) :
    ∀ it ∈ (prorateDiscount sale).1, ∃ it0 ∈ sale.items, it.productId = it0.productId := by
  intro it hit
  rcases prorateDiscount_items sale with he | he <;> rw [he] at hit
  · exact ⟨it, hit, rfl⟩
  · obtain ⟨it0, hm, rfl⟩ := List.mem_map.mp hit
    exact ⟨it0, hm, rfl⟩

/-- C10: a line whose `productId` matches no product row is silently skipped:
the completion loop performs no check and no write for it, the restock loop
performs no write for it, and a non-`COMPLETED` sale all of whose lines are
unmatched completes successfully with the product store unchanged. -/
theorem missingProduct_skipped (products : List Product) (item : SaleItem)
    (rest : List SaleItem) (sale : Sale)
    (hmiss : findProduct products item.productId = none) :
    decrementStockLoop products (item :: rest) = decrementStockLoop products rest ∧
    restoreStockLoop products (item :: rest) = restoreStockLoop products rest ∧
    ((∀ it ∈ sale.items, findProduct products it.productId = none) →
      sale.status ≠ SaleStatus.COMPLETED →
      completeSale products sale =
        (products, Except.ok ⟨sale.id, (prorateDiscount sale).1,
          (prorateDiscount sale).2, SaleStatus.COMPLETED⟩)) := by
  refine ⟨by rw [decrementStockLoop, hmiss], by rw [restoreStockLoop, hmiss],
    fun hall hs => ?_⟩
  have hpror : ∀ it ∈ (prorateDiscount sale).1,
      findProduct products it.productId = none := by
    intro it hit
    obtain ⟨it0, hm, hid⟩ := prorateDiscount_productId sale it hit
    rw [hid]
    exact hall it0 hm
  rw [completeSale, if_neg hs]
  simp only []
  rw [decrementStockLoop_all_missing products _ hpror]

/-- Witness for `missingProduct_skipped`: a store holding only product `"q"`
and a sale whose single line references the absent product `"x"`. -/
theorem missingProduct_skipped_witness :
    decrementStockLoop [⟨"q", 5, 5⟩] [⟨"x", 1, 10, 10, 10⟩] =
      decrementStockLoop [⟨"q", 5, 5⟩] [] ∧
    restoreStockLoop [⟨"q", 5, 5⟩] [⟨"x", 1, 10, 10, 10⟩] =
      restoreStockLoop [⟨"q", 5, 5⟩] [] ∧
    completeSale [⟨"q", 5, 5⟩] ⟨"s6", [⟨"x", 1, 10, 10, 10⟩], 0, SaleStatus.PENDING⟩ =
      ([⟨"q", 5, 5⟩], Except.ok ⟨"s6",
        (prorateDiscount ⟨"s6", [⟨"x", 1, 10, 10, 10⟩], 0, SaleStatus.PENDING⟩).1,
        (prorateDiscount ⟨"s6", [⟨"x", 1, 10, 10, 10⟩], 0, SaleStatus.PENDING⟩).2,
        SaleStatus.COMPLETED⟩) := by
  have hqx : ("q" : String) ≠ "x" := by decide
  have h := missingProduct_skipped [⟨"q", 5, 5⟩] ⟨"x", 1, 10, 10, 10⟩ []
    ⟨"s6", [⟨"x", 1, 10, 10, 10⟩], 0, SaleStatus.PENDING⟩
    (by simp [findProduct, hqx])
  exact ⟨h.1, h.2.1, h.2.2 (by
    intro it hit
    simp only [List.mem_singleton] at hit
    subst hit
    simp [findProduct, hqx]) (by decide)⟩

end ERPSales
